import Mathlib

/-!
Verification of the schedule-acquisition core of the schedule_TGbot repository
(`src/main.py`) against its natural-language specification.

The Python code is shallowly embedded: pure helper functions (`_parse_time`,
`_extract_subgroup`, `_extract_lesson_kind`, `_extract_day_month`,
`_extract_date_from_heading`, `_format_day_message`) are translated directly;
the DOM-walking parts of `ScheduleClient` (`list_institutes`,
`list_groups_by_course`, `get_week_schedule`) are translated as functions over
a structural model of the relevant BeautifulSoup selections (an element is
modelled by the fields the code reads from it: its CSS classes, its
`get_text(" ", strip=True)` text, its anchors, its relevant children in
document order); Python dicts become association lists with Python dict
semantics (update-in-place keeps the first-insertion position, new keys are
appended); `str.lower()` is modelled on the alphabets the code matches against
(ASCII and Cyrillic); the regexes of the source are compiled by hand into
total functions over `List Char`, with Python's leftmost-match `re.search`
semantics and the `$`-also-matches-before-a-final-newline rule of `re.match`.
-/

namespace SchedulePy

/-- Python `str.lower()` restricted to the alphabets relevant to the source's
keyword matching: ASCII `A`-`Z` and Cyrillic `А`-`Я` map down by 32 code
points, `Ё` maps to `ё`; every other character is unchanged. -/
def pyLowerChar (c : Char) : Char :=
  if 'A' ≤ c && c ≤ 'Z' then Char.ofNat (c.toNat + 32)
  else if 'А' ≤ c && c ≤ 'Я' then Char.ofNat (c.toNat + 32)
  else if c = 'Ё' then 'ё'
  else c

/-- `str.lower()` on a whole string. -/
def pyLowerStr (s : String) : String := String.mk (s.data.map pyLowerChar)

/-- The whitespace class of Python's `str.strip()` and of `\s` in its regexes,
restricted to the ASCII whitespace characters. -/
def isPyWs (c : Char) : Bool :=
  c = ' ' || c = '\t' || c = '\n' || c = '\r' || c = '\x0b' || c = '\x0c'

/-- Python `str.strip()`: drop leading and trailing whitespace. -/
def pyStrip (l : List Char) : List Char :=
  ((l.dropWhile isPyWs).reverse.dropWhile isPyWs).reverse

/-- Python's substring test `needle in hay` on character lists. -/
def hasSub (needle : List Char) : List Char → Bool
  | [] => needle.isEmpty
  | c :: rest => needle.isPrefixOf (c :: rest) || hasSub needle rest

/-- Python's substring test `needle in hay` on strings. -/
def pyIn (needle hay : String) : Bool := hasSub needle.data hay.data

/-- Numeric value of a decimal digit character. -/
def digitVal (c : Char) : Nat := c.toNat - '0'.toNat

/-- Python `int(...)` on a nonempty string of decimal digits. -/
def natOfDigits (l : List Char) : Nat :=
  l.foldl (fun acc c => acc * 10 + digitVal c) 0

/-- The range check and `time(hour=h, minute=mm)` construction at the end of
`_parse_time` (src/main.py lines 342-344). -/
def checkHM (h m : Nat) : Option (Nat × Nat) :=
  if h ≤ 23 && m ≤ 59 then some (h, m) else none

/-- `_parse_time` (src/main.py lines 336-344): strip the value, match the
anchored regex `^(\d{1,2}):(\d{2})$`, convert both groups with `int` and
range-check them.  After `strip()` the value has no trailing newline, so the
`$`-before-final-newline case of `re.match` cannot arise and the two match
shapes below are exactly the strings the regex accepts. -/
def _parse_time (value : String) : Option (Nat × Nat) :=
  match pyStrip value.data with
  | [h1, ':', m1, m2] =>
    if h1.isDigit && m1.isDigit && m2.isDigit then
      checkHM (digitVal h1) (10 * digitVal m1 + digitVal m2)
    else none
  | [h1, h2, ':', m1, m2] =>
    if h1.isDigit && h2.isDigit && m1.isDigit && m2.isDigit then
      checkHM (10 * digitVal h1 + digitVal h2) (10 * digitVal m1 + digitVal m2)
    else none
  | _ => none

/-- One attempt of the regex `подгруппа\s*(\d+)` anchored at the head of `cs`
(`cs` is already lowercased).  Greedy `\s*` then a nonempty digit run; the
regex engine's backtracking of `\s*` cannot help because a whitespace
character is never a digit, so the greedy reading is exact. -/
def subgroupDigitsAt (cs : List Char) : Option (List Char) :=
  if "подгруппа".data.isPrefixOf cs then
    let rest := cs.drop "подгруппа".data.length
    let ds := (rest.dropWhile isPyWs).takeWhile Char.isDigit
    if ds.isEmpty then none else some ds
  else none

/-- `re.search` of `подгруппа\s*(\d+)`: try every start position left to
right, return the first successful capture of the digit group. -/
def searchSubgroupDigits : List Char → Option (List Char)
  | [] => none
  | c :: rest =>
    match subgroupDigitsAt (c :: rest) with
    | some ds => some ds
    | none => searchSubgroupDigits rest

/-- `_extract_subgroup` (src/main.py lines 358-362): search the lowercased
text for `подгруппа\s*(\d+)`; no match gives `""`, a match gives the
canonical string `"подгруппа " + digits`. -/
def _extract_subgroup (text : String) : String :=
  match searchSubgroupDigits (text.data.map pyLowerChar) with
  | none => ""
  | some ds => String.mk ("подгруппа ".data ++ ds)

/-- `_extract_lesson_kind` (src/main.py lines 365-373). -/
def _extract_lesson_kind (text : String) : String :=
  let t := pyLowerStr text
  if pyIn "лекц" t then "лекция"
  else if pyIn "практ" t then "практика"
  else if pyIn "лаб" t || pyIn "лаборатор" t then "лаба"
  else ""

/-- The character class `[а-яё]` of `_extract_day_month`'s regex. -/
def isRuLetter (c : Char) : Bool := ('а' ≤ c && c ≤ 'я') || c = 'ё'

/-- The `\s+([а-яё]+)` suffix of the day-month regex, anchored at `cs`: at
least one whitespace character, then a maximal nonempty run of Cyrillic
letters (greedy, and nothing follows in the pattern, so greedy is exact). -/
def dmTail (cs : List Char) : Option (List Char) :=
  match cs with
  | [] => none
  | c :: _ =>
    if isPyWs c then
      let letters := (cs.dropWhile isPyWs).takeWhile isRuLetter
      if letters.isEmpty then none else some letters
    else none

/-- The part of the regex `,\s*(\d{1,2})\s+([а-яё]+)` after the comma,
anchored at `cs`.  `\d{1,2}` is greedy; when two digits are read but the rest
fails, the one-digit backtrack would need `\s+` to match at the second digit,
which is impossible, so no backtracking case survives. -/
def dmAfterComma (cs : List Char) : Option (Nat × List Char) :=
  match cs.dropWhile isPyWs with
  | [] => none
  | d1 :: rest =>
    if d1.isDigit then
      match rest with
      | [] => none
      | d2 :: rest2 =>
        if d2.isDigit then
          match dmTail rest2 with
          | some w => some (10 * digitVal d1 + digitVal d2, w)
          | none => none
        else
          (dmTail rest).map (fun w => (digitVal d1, w))
    else none

/-- `re.search` of `,\s*(\d{1,2})\s+([а-яё]+)`: leftmost match wins. -/
def searchDayMonth : List Char → Option (Nat × List Char)
  | [] => none
  | c :: rest =>
    match (if c = ',' then dmAfterComma rest else none) with
    | some r => some r
    | none => searchDayMonth rest

/-- `RU_MONTHS` (src/main.py lines 376-389). -/
def RU_MONTHS : List (List Char × Nat) :=
  [("января".data, 1), ("февраля".data, 2), ("марта".data, 3),
   ("апреля".data, 4), ("мая".data, 5), ("июня".data, 6),
   ("июля".data, 7), ("августа".data, 8), ("сентября".data, 9),
   ("октября".data, 10), ("ноября".data, 11), ("декабря".data, 12)]

/-- `RU_MONTHS.get(word)`. -/
def lookupMonth (w : List Char) : Option Nat :=
  (RU_MONTHS.find? (fun p => decide (p.1 = w))).map Prod.snd

/-- `_extract_day_month` (src/main.py lines 392-401): lowercase the heading,
search for the day/month pattern, then translate the month word through
`RU_MONTHS`. -/
def _extract_day_month (heading : String) : Option (Nat × Nat) :=
  match searchDayMonth (heading.data.map pyLowerChar) with
  | none => none
  | some (day, w) =>
    match lookupMonth w with
    | none => none
    | some month => some (day, month)

/-- A value of Python's `datetime.date` type. -/
structure PyDate where
  year : Nat
  month : Nat
  day : Nat
deriving DecidableEq

/-- Gregorian leap-year rule, as used by `datetime.date`. -/
def isLeapYear (y : Nat) : Bool := y % 4 = 0 && (y % 100 ≠ 0 || y % 400 = 0)

/-- Number of days in a month of the Gregorian calendar. -/
def daysInMonth (y m : Nat) : Nat :=
  if m = 2 then (if isLeapYear y then 29 else 28)
  else if m = 4 || m = 6 || m = 9 || m = 11 then 30
  else 31

/-- The validity condition the `datetime.date` constructor enforces (raising
`ValueError` otherwise): year in `[1, 9999]`, month in `[1, 12]`, day in
`[1, days-in-month]`. -/
def isValidPyDate (y m d : Nat) : Bool :=
  1 ≤ y && y ≤ 9999 && 1 ≤ m && m ≤ 12 && 1 ≤ d && d ≤ daysInMonth y m

/-- `date(year, month, day)` inside a `try/except ValueError` returning
`None`, as in `_extract_date_from_heading`. -/
def mkPyDate (y m d : Nat) : Option PyDate :=
  if isValidPyDate y m d then some ⟨y, m, d⟩ else none

/-- The year-resolution step of `_extract_date_from_heading` (src/main.py
lines 409-413).  The two adjustments cannot both fire; with `Nat` years the
`- 1` truncates at zero, where the Python value would be year `0`, which is
invalid for `date` exactly as year `0` is invalid for `isValidPyDate`. -/
def resolveYear (reference : PyDate) (month : Nat) : Nat :=
  let y := reference.year
  let y := if reference.month = 12 && month = 1 then y + 1 else y
  if reference.month = 1 && month = 12 then y - 1 else y

/-- `_extract_date_from_heading` (src/main.py lines 404-417). -/
def _extract_date_from_heading (heading : String) (reference : PyDate) :
    Option PyDate :=
  match _extract_day_month heading with
  | none => none
  | some (day, month) => mkPyDate (resolveYear reference month) month day

/-- An `<a>` element, modelled by the two things the code reads from it: its
`href` attribute (`a.get("href") or ""`) and its `get_text(" ", strip=True)`
text. -/
structure Anchor where
  href : String
  text : String
deriving DecidableEq

/-- `Institute` (src/main.py lines 66-69). -/
structure Institute where
  subdiv_id : Nat
  title : String
deriving DecidableEq

/-- `Group` (src/main.py lines 72-75). -/
structure Group where
  group_id : Nat
  title : String
deriving DecidableEq

/-- A lesson start time: the `(hour, minute)` pair of a `datetime.time`
value, which Python compares lexicographically. -/
abbrev StartTime := Nat × Nat

/-- `Lesson` (src/main.py lines 78-85). -/
structure Lesson where
  start : StartTime
  subject : String
  kind : String
  subgroup : String
  room : String
  teacher : String
deriving DecidableEq

/-- `DaySchedule` (src/main.py lines 88-91). -/
structure DaySchedule where
  heading : String
  lessons : List Lesson
deriving DecidableEq

/-- The CSS selection `a[href^="..."]`: anchors whose `href` starts with the
given marker string. -/
def selectByHrefStart (marker : String) (anchors : List Anchor) : List Anchor :=
  anchors.filter (fun a => marker.data.isPrefixOf a.href.data)

/-- A full match of `^\?subdiv=(\d+)$` / `^\?group=(\d+)$` against `href`
(the marker is the literal part), returning `int(m.group(1))`.  Python's `$`
also matches just before a single trailing newline, so that shape is accepted
too, exactly as `re.match` would. -/
def idAfterMarker (marker : String) (href : String) : Option Nat :=
  if marker.data.isPrefixOf href.data then
    let rest := href.data.drop marker.data.length
    let ds := rest.takeWhile Char.isDigit
    let after := rest.drop ds.length
    if ds.isEmpty then none
    else if after = [] || after = ['\n'] then some (natOfDigits ds)
    else none
  else none

/-- Assignment `m[k] = v` on a Python dict modelled as an association list:
an existing key keeps its first-insertion position and gets the new value, a
new key is appended. -/
def pyDictSet {κ β : Type} [DecidableEq κ] (m : List (κ × β)) (k : κ) (v : β) :
    List (κ × β) :=
  if m.any (fun p => decide (p.1 = k)) then
    m.map (fun p => if p.1 = k then (k, v) else p)
  else m ++ [(k, v)]

/-- Python dict lookup `m.get(k)`. -/
def pyDictGet {κ β : Type} [DecidableEq κ] (m : List (κ × β)) (k : κ) :
    Option β :=
  (m.find? (fun p => decide (p.1 = k))).map Prod.snd

/-- The institutes root page, modelled by what `list_institutes` reads from
it: `soup.select_one("div.content")` either is absent (`none`) or yields the
anchors inside the content container, in document order. -/
structure RootPage where
  content : Option (List Anchor)

/-- The loop body of `list_institutes` (src/main.py lines 179-187): match the
anchor's href against `^\?subdiv=(\d+)$` and, when the title text is
nonempty, assign `institutes[subdiv_id] = title`. -/
def instStep (m : List (Nat × String)) (a : Anchor) : List (Nat × String) :=
  match idAfterMarker "?subdiv=" a.href with
  | none => m
  | some subdiv_id => if a.text ≠ "" then pyDictSet m subdiv_id a.text else m

/-- Case-insensitive title comparison `key=lambda x: x.title.lower()`,
as a relation on lowered character lists under the lexicographic order. -/
def lowerTitleLe (s t : String) : Prop :=
  s.data.map pyLowerChar ≤ t.data.map pyLowerChar

instance : DecidableRel lowerTitleLe := fun s t =>
  inferInstanceAs (Decidable (s.data.map pyLowerChar ≤ t.data.map pyLowerChar))

/-- `sort(key=lambda x: x.title.lower())` on the institutes list. -/
def instituteLowerR (a b : Institute) : Prop := lowerTitleLe a.title b.title

instance : DecidableRel instituteLowerR := fun a b =>
  inferInstanceAs (Decidable (lowerTitleLe a.title b.title))

instance : IsTotal Institute instituteLowerR :=
  ⟨fun a b => le_total (a.title.data.map pyLowerChar) (b.title.data.map pyLowerChar)⟩

instance : IsTrans Institute instituteLowerR :=
  ⟨fun _ _ _ h1 h2 => le_trans h1 h2⟩

/-- `sort(key=lambda g: g.title.lower())` on a group list. -/
def groupLowerR (a b : Group) : Prop := lowerTitleLe a.title b.title

instance : DecidableRel groupLowerR := fun a b =>
  inferInstanceAs (Decidable (lowerTitleLe a.title b.title))

instance : IsTotal Group groupLowerR :=
  ⟨fun a b => le_total (a.title.data.map pyLowerChar) (b.title.data.map pyLowerChar)⟩

instance : IsTrans Group groupLowerR :=
  ⟨fun _ _ _ h1 h2 => le_trans h1 h2⟩

/-- `ScheduleClient.list_institutes` (src/main.py lines 168-191) on a fetched
page: missing `div.content` returns `[]`; otherwise scan the
`a[href^="?subdiv="]` anchors into a dict keyed by id (last-seen nonempty
title wins), then sort case-insensitively by title.  Python's `list.sort` is
stable; ties of the lowered-title key are resolved arbitrarily here, which
coincides with the source whenever no two entries share a lowered title. -/
def list_institutes (page : RootPage) : List Institute :=
  match page.content with
  | none => []
  | some anchors =>
    let pairs := (selectByHrefStart "?subdiv=" anchors).foldl instStep []
    List.insertionSort instituteLowerR
      (pairs.map (fun p => Institute.mk p.1 p.2))

/-- The word-character class `\w` of the `\b` boundary in
`^Курс\s*(\d+)\b`, restricted to ASCII and Cyrillic. -/
def isWordChar (c : Char) : Bool :=
  c.isAlphanum || c = '_' || ('а' ≤ c && c ≤ 'я') || ('А' ≤ c && c ≤ 'Я') ||
    c = 'ё' || c = 'Ё'

/-- `re.match(r"^Курс\s*(\d+)\b", header)` followed by `int(m.group(1))`:
the literal `Курс` at the start, optional whitespace, a nonempty greedy digit
run, and a word boundary (the next character, if any, is not a word
character). -/
def courseOfHeader (header : String) : Option Nat :=
  if "Курс".data.isPrefixOf header.data then
    let rest := (header.data.drop "Курс".data.length).dropWhile isPyWs
    let ds := rest.takeWhile Char.isDigit
    if ds.isEmpty then none
    else
      match rest.drop ds.length with
      | [] => some (natOfDigits ds)
      | c :: _ => if isWordChar c then none else some (natOfDigits ds)
  else none

/-- One `<li>` of `ul.kurs-list`, modelled by what the loop reads from it:
its `get_text(" ", strip=True)` header and, when it has a nested `<ul>`, the
anchors inside that `<ul>` in document order. -/
structure CourseItem where
  header : String
  groupAnchors : Option (List Anchor)
deriving DecidableEq

/-- A per-institute page, modelled by `soup.select_one("ul.kurs-list")`:
absent, or the list of its `<li>` items. -/
structure CoursePage where
  kurs_list : Option (List CourseItem)

/-- The inner anchor loop of `list_groups_by_course` (src/main.py lines
217-226): `a[href^="?group="]` anchors matched fully against
`^\?group=(\d+)$`, keeping those with nonempty title, in document order. -/
def groupsOfAnchors (anchors : List Anchor) : List Group :=
  (selectByHrefStart "?group=" anchors).foldl
    (fun gs a =>
      match idAfterMarker "?group=" a.href with
      | none => gs
      | some gid => if a.text ≠ "" then gs ++ [Group.mk gid a.text] else gs)
    []

/-- The body of the `<li>` loop of `list_groups_by_course` (src/main.py
lines 207-229): skip an item without a nested `<ul>` or without a `Курс N`
header; otherwise sort its groups case-insensitively and, when nonempty,
assign them under course `N` in the dict. -/
def courseStep (m : List (Nat × List Group)) (it : CourseItem) :
    List (Nat × List Group) :=
  match it.groupAnchors with
  | none => m
  | some anchors =>
    match courseOfHeader it.header with
    | none => m
    | some course =>
      let groups := List.insertionSort groupLowerR (groupsOfAnchors anchors)
      if groups.isEmpty then m else pyDictSet m course groups

/-- `ScheduleClient.list_groups_by_course` (src/main.py lines 193-232) on a
fetched page: missing `ul.kurs-list` gives the empty mapping; otherwise each
`<li>` contributes through `courseStep` (a repeated course number
overwrites, per dict assignment). -/
def list_groups_by_course (page : CoursePage) : List (Nat × List Group) :=
  match page.kurs_list with
  | none => []
  | some items => items.foldl courseStep []

/-- A node among the children of a tail block, in document order, restricted
to the three kinds of nodes `get_week_schedule` navigates between:
`div.class-pred` (subject), `div.class-info` (kind text plus its anchors) and
`div.class-aud` (room). -/
inductive TailNode where
  | pred (text : String)
  | info (text : String) (anchors : List Anchor)
  | aud (text : String)
deriving DecidableEq

/-- A `div.class-tail` block: its CSS classes, its whole
`get_text(" ", strip=True)` text, and its child nodes in document order. -/
structure Tail where
  classes : List String
  text : String
  nodes : List TailNode
deriving DecidableEq

/-- A `div.class-line-item`: the text of its `div.class-time` child when
present, and its tail blocks in document order. -/
structure WeekItem where
  time_text : Option String
  tails : List Tail
deriving DecidableEq

/-- An `h3.day-heading` together with its following `div.class-lines`
sibling, when one exists. -/
structure DayBlock where
  heading : String
  lines : Option (List WeekItem)
deriving DecidableEq

/-- A weekly schedule page, modelled by what `get_week_schedule` reads:
the text of `#dateweek` when present, and the day blocks inside
`div.content` when the content container is present. -/
structure WeekPage where
  dateweek : Option String
  content : Option (List DayBlock)

/-- The `week_text` computation (src/main.py line 248): the lowercased
`#dateweek` text, or `""` when the element is absent. -/
def week_text_of (dateweek : Option String) : String :=
  match dateweek with
  | some t => pyLowerStr t
  | none => ""

/-- The keyword cascade of src/main.py lines 249-254 producing
`page_is_odd_week`. -/
def page_is_odd_week (week_text : String) : Bool :=
  if pyIn "нечет" week_text || pyIn "нечёт" week_text then true
  else if pyIn "четн" week_text || pyIn "чётн" week_text then false
  else false

/-- Line 256 of src/main.py: `is_odd_week = not page_is_odd_week`. -/
def resolve_is_odd_week (dateweek : Option String) : Bool :=
  !page_is_odd_week (week_text_of dateweek)

/-- Membership test of a class name in an element's class list
(`class_name in classes`). -/
def cssHas (t : Tail) (c : String) : Bool := t.classes.contains c

/-- Matches the selection `div.class-tail.class-all-week`. -/
def isAllWeekTail (t : Tail) : Bool :=
  cssHas t "class-tail" && cssHas t "class-all-week"

/-- The parity tail selector chosen on src/main.py line 281. -/
def paritySelector (is_odd : Bool) : String :=
  if is_odd then "class-odd-week" else "class-even-week"

/-- Matches the selection `div.class-tail.class-odd-week` (resp. even). -/
def isParityTail (is_odd : Bool) (t : Tail) : Bool :=
  cssHas t "class-tail" && cssHas t (paritySelector is_odd)

/-- The tail collection of src/main.py lines 278-284: every
`class-all-week` tail, then the first tail matching the resolved parity
(`select_one`), if any. -/
def selected_tails (is_odd : Bool) (item : WeekItem) : List Tail :=
  let allW := item.tails.filter isAllWeekTail
  match item.tails.find? (isParityTail is_odd) with
  | some t => allW ++ [t]
  | none => allW

/-- Projection to a `class-info` node. -/
def nodeInfoData : TailNode → Option (String × List Anchor)
  | .info t as => some (t, as)
  | _ => none

/-- Projection to a `class-aud` node. -/
def nodeAudText : TailNode → Option String
  | .aud t => some t
  | _ => none

/-- `find_previous_sibling("div", class_="class-info")` from position `i`:
the nearest `class-info` node strictly before `i`. -/
def prevInfo (nodes : List TailNode) (i : Nat) : Option (String × List Anchor) :=
  ((nodes.take i).reverse).findSome? nodeInfoData

/-- `_find_next_sibling(el, "class-info")` from position `i`: the nearest
`class-info` node strictly after `i`. -/
def nextInfo (nodes : List TailNode) (i : Nat) : Option (String × List Anchor) :=
  (nodes.drop (i + 1)).findSome? nodeInfoData

/-- `_find_next_sibling(el, "class-aud")` from position `i`. -/
def nextAud (nodes : List TailNode) (i : Nat) : Option String :=
  (nodes.drop (i + 1)).findSome? nodeAudText

/-- The teacher extraction of src/main.py lines 302-308: `?prep=` anchors of
the preceding info node, nonempty names joined with `", "`, defaulting to
`"—"`. -/
def teacherOf (kindInfo : Option (String × List Anchor)) : String :=
  match kindInfo with
  | none => "—"
  | some (_, anchors) =>
    let names :=
      ((selectByHrefStart "?prep=" anchors).map (fun a => a.text)).filter
        (fun t => t ≠ "")
    if names.isEmpty then "—" else String.intercalate ", " names

/-- The body of the subject loop (src/main.py lines 293-325) for the subject
node at position `i` of the tail's children: skip an empty subject, otherwise
build one `Lesson` from the surrounding sibling nodes. -/
def lessonAt (start : StartTime) (nodes : List TailNode) (i : Nat) :
    List Lesson :=
  match nodes[i]? with
  | some (.pred subject) =>
    if subject = "" then []
    else
      let kindInfo := prevInfo nodes i
      let kind :=
        _extract_lesson_kind (match kindInfo with
          | some (t, _) => t
          | none => "")
      let teacher := teacherOf kindInfo
      let subgroup :=
        _extract_subgroup (match nextInfo nodes i with
          | some (t, _) => t
          | none => "")
      let room :=
        match nextAud nodes i with
        | some t => t
        | none => "—"
      [{ start := start, subject := subject, kind := kind, subgroup := subgroup,
         room := if room = "" then "—" else room,
         teacher := if teacher = "" then "—" else teacher }]
  | _ => []

/-- `tail.select("div.class-pred")` iteration: each child position
contributes its lessons (non-subject positions contribute nothing). -/
def lessonsOfNodes (start : StartTime) (nodes : List TailNode) : List Lesson :=
  (List.range nodes.length).flatMap (lessonAt start nodes)

/-- The per-tail step of src/main.py lines 289-291: a tail whose entire
lowercased text is the free marker `"свободно"` contributes nothing. -/
def tail_lessons (start : StartTime) (tail : Tail) : List Lesson :=
  if pyLowerStr tail.text = "свободно" then [] else lessonsOfNodes start tail.nodes

/-- The per-item parsing of src/main.py lines 270-325: require a
`class-time` child with a parseable time, then emit the lessons of the
selected tails. -/
def lessonsOfItem (is_odd : Bool) (item : WeekItem) : List Lesson :=
  match item.time_text with
  | none => []
  | some ts =>
    match _parse_time ts with
    | none => []
    | some start =>
      let tails := selected_tails is_odd item
      if tails.isEmpty then [] else tails.flatMap (tail_lessons start)

/-- The per-day parsing of src/main.py lines 263-327: a heading without a
following `class-lines` container is skipped; otherwise the day collects the
lessons of its items. -/
def dayScheduleOf (is_odd : Bool) (db : DayBlock) : Option DaySchedule :=
  match db.lines with
  | none => none
  | some items => some ⟨db.heading, items.flatMap (lessonsOfItem is_odd)⟩

/-- The parse performed by `ScheduleClient.get_week_schedule` (src/main.py
lines 245-329) on a fetched page: resolve the week parity from `#dateweek`,
then, when `div.content` is present, collect the day schedules in document
order; a missing content container yields `(is_odd_week, [])`. -/
def get_week_schedule_parse (page : WeekPage) : Bool × List DaySchedule :=
  let is_odd := resolve_is_odd_week page.dateweek
  match page.content with
  | none => (is_odd, [])
  | some dayBlocks => (is_odd, dayBlocks.filterMap (dayScheduleOf is_odd))

/-- Two-digit zero padding, as in `%02d` fields of `strftime` and
`date.isoformat`. -/
def pad2 (n : Nat) : String := if n < 10 then "0" ++ Nat.repr n else Nat.repr n

/-- Four-digit zero padding for the year field of `date.isoformat`. -/
def pad4 (n : Nat) : String :=
  if n < 10 then "000" ++ Nat.repr n
  else if n < 100 then "00" ++ Nat.repr n
  else if n < 1000 then "0" ++ Nat.repr n
  else Nat.repr n

/-- `date.isoformat()`: `YYYY-MM-DD`. -/
def pyIsoFormat (d : PyDate) : String :=
  pad4 d.year ++ "-" ++ pad2 d.month ++ "-" ++ pad2 d.day

/-- `ScheduleClient._parsed_cache_key` (src/main.py lines 147-148):
`f"{group_id}:{target_date.isoformat()}"`. -/
def _parsed_cache_key (group_id : Nat) (target_date : PyDate) : String :=
  Nat.repr group_id ++ ":" ++ pyIsoFormat target_date

/-- The cached value type of `_parsed_cache`: `(is_odd_week, days)`. -/
abbrev WeekResult := Bool × List DaySchedule

/-- The cache insertion of src/main.py line 331:
`self._parsed_cache[cache_key] = (now, result)`. -/
def parsed_cache_store (cache : List (String × (Nat × WeekResult)))
    (group_id : Nat) (target_date : PyDate) (now : Nat) (result : WeekResult) :
    List (String × (Nat × WeekResult)) :=
  pyDictSet cache (_parsed_cache_key group_id target_date) (now, result)

/-- The cache lookup of src/main.py lines 236-239: a hit returns the stored
result (`cached[1]`). -/
def parsed_cache_hit (cache : List (String × (Nat × WeekResult)))
    (group_id : Nat) (target_date : PyDate) : Option WeekResult :=
  (pyDictGet cache (_parsed_cache_key group_id target_date)).map Prod.snd

/-- Number of days before January 1 of year `y` in the proleptic Gregorian
calendar (so ordinal day 1 is 0001-01-01), as in `datetime.date.toordinal`. -/
def daysBeforeYear (y : Nat) : Nat :=
  365 * (y - 1) + (y - 1) / 4 - (y - 1) / 100 + (y - 1) / 400

/-- Days before the first of `month` in year `y`. -/
def daysBeforeMonth (y m : Nat) : Nat :=
  (List.range (m - 1)).foldl (fun acc i => acc + daysInMonth y (i + 1)) 0

/-- `date.toordinal()`. -/
def toOrdinal (d : PyDate) : Nat :=
  daysBeforeYear d.year + daysBeforeMonth d.year d.month + d.day

/-- The ordinal of the Monday starting ISO week 1 of year `y`, following
CPython's `_isoweek1monday`. -/
def isoWeek1Monday (y : Nat) : Nat :=
  let firstday := daysBeforeYear y + 1
  let firstweekday := (firstday + 6) % 7
  firstday - firstweekday + (if 3 < firstweekday then 7 else 0)

/-- The `(ISO year, ISO week number)` pair of `date.isocalendar()`,
following CPython's implementation.  This calendar function is used only to
state week-granularity properties of the cache key; the source never
computes it. -/
def isoYearWeek (d : PyDate) : Nat × Nat :=
  let today := toOrdinal d
  let y := d.year
  if today < isoWeek1Monday y then
    (y - 1, (today - isoWeek1Monday (y - 1)) / 7 + 1)
  else
    let week := (today - isoWeek1Monday y) / 7
    if 52 ≤ week && isoWeek1Monday (y + 1) ≤ today then (y + 1, 1)
    else (y, week + 1)

/-- One outcome of `session.get(...)`: an HTTP response with a status code
and body text, or a connection-level failure (connection error or timeout). -/
inductive HttpOutcome where
  | response (status : Nat) (body : String)
  | connectionFailure
deriving DecidableEq

/-- The failure surfaced by `_get_text`: the `ClientResponseError` raised by
`resp.raise_for_status()`, or a connection-level `ClientError`. -/
inductive FetchError where
  | httpStatus (status : Nat)
  | network
deriving DecidableEq

/-- One GET attempt (src/main.py lines 141-143): `raise_for_status()` raises
for any status of 400 or above; otherwise the body text is returned. -/
def attempt_fetch : HttpOutcome → Except FetchError String
  | .response status body =>
    if 400 ≤ status then .error (.httpStatus status) else .ok body
  | .connectionFailure => .error .network

/-- The observable behaviour of one `_get_text` call: its result, how many
HTTP requests it issued, and the backoff delays it slept. -/
structure FetchTrace where
  result : Except FetchError String
  requests : Nat
  sleeps : List Nat

/-- `ScheduleClient._get_text` (src/main.py lines 135-145) against a
transport that prescribes the outcome of the `i`-th request: a fresh-enough
raw-cache entry (age under 30) is returned without any request; otherwise
exactly one request is made — the code contains no retry loop and no
backoff sleep. -/
def get_text_run (cached : Option (Nat × String)) (now : Nat)
    (transport : Nat → HttpOutcome) : FetchTrace :=
  match cached with
  | some (ts, text) =>
    if now - ts < 30 then ⟨.ok text, 0, []⟩
    else ⟨attempt_fetch (transport 0), 1, []⟩
  | none => ⟨attempt_fetch (transport 0), 1, []⟩

/-- The full sort key of src/main.py line 427:
`(l.start, l.subject, l.kind, l.subgroup, l.room, l.teacher)`, compared as
Python compares tuples — lexicographically, with `time` values ordered by
`(hour, minute)` and strings ordered lexicographically by code point. -/
def lessonKey (l : Lesson) :
    Lex (Nat ×
      Lex (Nat ×
        Lex (List Char ×
          Lex (List Char × Lex (List Char × Lex (List Char × List Char)))))) :=
  toLex (l.start.1,
    toLex (l.start.2,
      toLex (l.subject.data,
        toLex (l.kind.data,
          toLex (l.subgroup.data, toLex (l.room.data, l.teacher.data))))))

/-- The sort relation of `sorted(lessons, key=...)` on line 427. -/
def lessonSortR (a b : Lesson) : Prop := lessonKey a ≤ lessonKey b

instance : DecidableRel lessonSortR := fun a b =>
  inferInstanceAs (Decidable (lessonKey a ≤ lessonKey b))

instance : IsTotal Lesson lessonSortR := ⟨fun a b => le_total (lessonKey a) (lessonKey b)⟩

instance : IsTrans Lesson lessonSortR := ⟨fun _ _ _ h1 h2 => le_trans h1 h2⟩

/-- `sorted(lessons, key=lambda l: (l.start, l.subject, l.kind, l.subgroup,
l.room, l.teacher))` (src/main.py line 427).  Python's sort is stable, but
two lessons with equal full key are equal records, so any sorted permutation
is the one Python produces. -/
def sortLessons (ls : List Lesson) : List Lesson :=
  List.insertionSort lessonSortR ls

/-- The within-block sort key of src/main.py line 443:
`(l.subject, l.kind, l.subgroup, l.room, l.teacher)`. -/
def variantKey (l : Lesson) :
    Lex (List Char ×
      Lex (List Char × Lex (List Char × Lex (List Char × List Char)))) :=
  toLex (l.subject.data,
    toLex (l.kind.data,
      toLex (l.subgroup.data, toLex (l.room.data, l.teacher.data))))

/-- The sort relation of `sorted(blocks[key], key=...)` on line 443. -/
def variantR (a b : Lesson) : Prop := variantKey a ≤ variantKey b

instance : DecidableRel variantR := fun a b =>
  inferInstanceAs (Decidable (variantKey a ≤ variantKey b))

instance : IsTotal Lesson variantR := ⟨fun a b => le_total (variantKey a) (variantKey b)⟩

instance : IsTrans Lesson variantR := ⟨fun _ _ _ h1 h2 => le_trans h1 h2⟩

/-- `sorted(blocks[key], key=...)` (src/main.py line 443). -/
def sortedVariants (ls : List Lesson) : List Lesson :=
  List.insertionSort variantR ls

/-- One step of the block-building loop of src/main.py lines 429-436: the
dict `blocks` together with the insertion-order list `order` is an
association list from start time to the lessons appended under it. -/
def addToBlocks (bs : List (StartTime × List Lesson)) (l : Lesson) :
    List (StartTime × List Lesson) :=
  if bs.any (fun b => decide (b.1 = l.start)) then
    bs.map (fun b => if b.1 = l.start then (b.1, b.2 ++ [l]) else b)
  else bs ++ [(l.start, [l])]

/-- The `blocks`/`order` structure built on src/main.py lines 429-436 from
the sorted lesson list. -/
def groupBlocks (ls : List Lesson) : List (StartTime × List Lesson) :=
  ls.foldl addToBlocks []

/-- The sequence in which lessons are rendered by `_format_day_message`:
blocks in first-occurrence order of start time, each block's variants in
within-block sorted order. -/
def rendered_lessons (lessons : List Lesson) : List Lesson :=
  (groupBlocks (sortLessons lessons)).flatMap (fun b => sortedVariants b.2)

/-- `strftime("%H:%M")` on an `(hour, minute)` pair. -/
def fmtHM (t : StartTime) : String := pad2 t.1 ++ ":" ++ pad2 t.2

/-- The block end time of src/main.py lines 440-441: start plus 90 minutes,
wrapping at midnight as `datetime.combine(...) + timedelta(...)).time()`
does. -/
def endOfStart (t : StartTime) : StartTime :=
  let total := t.1 * 60 + t.2 + 90
  ((total / 60) % 24, total % 60)

/-- The lines emitted for one lesson (src/main.py lines 447-458): the time
range with subject and parenthesised kind, then a detail line listing the
truthy, non-placeholder fields. -/
def lessonEntryLines (startS endS : String) (l : Lesson) : List String :=
  let kind := if l.kind ≠ "" then " (" ++ l.kind ++ ")" else ""
  let details :=
    (if l.subgroup ≠ "" then [l.subgroup] else []) ++
    (if l.room ≠ "" && l.room ≠ "—" then [l.room] else []) ++
    (if l.teacher ≠ "" && l.teacher ≠ "—" then [l.teacher] else [])
  [startS ++ " — " ++ endS ++ " " ++ l.subject ++ kind] ++
    (if details.isEmpty then [] else [" • " ++ String.intercalate " | " details])

/-- The variant loop of src/main.py lines 444-458: `"==="` before every
variant except the first. -/
def variantsLines (startS endS : String) : List Lesson → List String
  | [] => []
  | [l] => lessonEntryLines startS endS l
  | l :: rest => lessonEntryLines startS endS l ++ ["==="] ++ variantsLines startS endS rest

/-- The separator line of src/main.py line 421. -/
def daySep : String := "------------------"

/-- The lines of one block (src/main.py lines 438-458). -/
def blockLines (b : StartTime × List Lesson) : List String :=
  variantsLines (fmtHM b.1) (fmtHM (endOfStart b.1)) (sortedVariants b.2)

/-- The block loop of src/main.py lines 438-461: the separator after every
block except the last. -/
def blocksLines : List (StartTime × List Lesson) → List String
  | [] => []
  | [b] => blockLines b
  | b :: rest => blockLines b ++ [daySep] ++ blocksLines rest

/-- `_format_day_message` (src/main.py lines 420-463). -/
def _format_day_message (heading : String) (lessons : List Lesson) : String :=
  if lessons.isEmpty then
    String.intercalate "\n" ["🍌" ++ heading, daySep, "нет занятий"]
  else
    String.intercalate "\n"
      (["🍌" ++ heading, daySep] ++ blocksLines (groupBlocks (sortLessons lessons)))

/-- Helper: the range check of `_parse_time` only lets valid hours and
minutes through. -/
theorem checkHM_le {a b : Nat} {hm : Nat × Nat} (h : checkHM a b = some hm) :
    hm.1 ≤ 23 ∧ hm.2 ≤ 59 := by
  unfold checkHM at h
  split at h
  · rename_i hc
    cases h
    simp only [Bool.and_eq_true, decide_eq_true_eq] at hc
    exact ⟨hc.1, hc.2⟩
  · exact absurd h (by simp)

/-- C1, counterexample.  The claim says an explicit odd-week indicator in the
page text forces `is_odd_week = true`, and that an absent indicator falls
back to the ISO week parity of the requested date.  The code (src/main.py
lines 249-256) negates the page indicator, and when the indicator is absent
it reports `true` unconditionally — the requested date is never consulted:
here a page stating an odd week parses as an even week, and a page with no
indicator parses as odd even though the requested date 2025-01-06 lies in
ISO week 2, an even week. -/
theorem C1_counterexample :
    (get_week_schedule_parse ⟨some "Сейчас идёт НЕЧЁТНАЯ неделя", some []⟩).1 = false ∧
    (get_week_schedule_parse ⟨none, some []⟩).1 = true ∧
    (isoYearWeek ⟨2025, 1, 6⟩).2 % 2 = 0 := by
  refine ⟨by decide, by decide, by decide⟩

/-- C1, amended.  Week-parity resolution inverts the page indicator: when
the lowered `#dateweek` text contains an odd-week keyword, `is_odd_week` is
`false`; in every other case (an even-week keyword, or no indicator at all)
`is_odd_week` is `true`.  The ISO week number of the requested date is never
consulted.  `get_week_schedule` reports exactly this resolution. -/
theorem C1_parity_resolution :
    (∀ dateweek : Option String,
        (pyIn "нечет" (week_text_of dateweek) || pyIn "нечёт" (week_text_of dateweek)) = true →
        resolve_is_odd_week dateweek = false) ∧
    (∀ dateweek : Option String,
        (pyIn "нечет" (week_text_of dateweek) || pyIn "нечёт" (week_text_of dateweek)) = false →
        resolve_is_odd_week dateweek = true) ∧
    (∀ page : WeekPage,
        (get_week_schedule_parse page).1 = resolve_is_odd_week page.dateweek) := by
  refine ⟨?_, ?_, ?_⟩
  · intro dateweek h
    simp [resolve_is_odd_week, page_is_odd_week, h]
  · intro dateweek h
    simp [resolve_is_odd_week, page_is_odd_week, h]
  · intro page
    cases hp : page.content <;> simp [get_week_schedule_parse, hp]

/-- Witness for C1: both directions of the amended parity resolution at
concrete page texts. -/
theorem C1_witness :
    resolve_is_odd_week (some "НЕЧЁТНАЯ неделя") = false ∧
    resolve_is_odd_week (some "сейчас чётная неделя") = true :=
  ⟨C1_parity_resolution.1 (some "НЕЧЁТНАЯ неделя") (by decide),
   C1_parity_resolution.2.1 (some "сейчас чётная неделя") (by decide)⟩

/-- A transport answering 503 to the first two requests and 200 afterwards,
as in the claim's scenario. -/
def transport503 : Nat → HttpOutcome :=
  fun i => if i < 2 then .response 503 "" else .response 200 "ok"

/-- C2, counterexample.  The claim says the fetch retries up to 3 attempts
with backoff and succeeds on the third attempt against a 503/503/200
transport.  `_get_text` (src/main.py lines 135-145) contains no retry loop:
against that transport it makes exactly one request, sleeps never, and
surfaces the first 503 as an error. -/
theorem C2_counterexample :
    (get_text_run none 0 transport503).result = .error (.httpStatus 503) ∧
    (get_text_run none 0 transport503).requests = 1 ∧
    (get_text_run none 0 transport503).sleeps = [] :=
  ⟨rfl, rfl, rfl⟩

/-- C2, amended.  On a raw-cache miss `_get_text` performs exactly one GET
and sleeps no backoff delay; any connection error, timeout, or HTTP status
of 500 and above (in fact 400 and above, via `raise_for_status`) from that
single attempt is surfaced to the caller immediately. -/
theorem C2_single_attempt :
    (∀ (now : Nat) (transport : Nat → HttpOutcome),
        get_text_run none now transport =
          ⟨attempt_fetch (transport 0), 1, []⟩) ∧
    (∀ (status : Nat) (body : String), 500 ≤ status →
        attempt_fetch (.response status body) = .error (.httpStatus status)) ∧
    attempt_fetch .connectionFailure = .error .network := by
  refine ⟨fun now transport => rfl, ?_, rfl⟩
  intro status body h
  simp only [attempt_fetch]
  rw [if_pos (le_trans (by norm_num : (400 : Nat) ≤ 500) h)]

/-- Witness for C2: the single-attempt behaviour at a concrete 5xx status. -/
theorem C2_witness :
    attempt_fetch (.response 503 "") = .error (.httpStatus 503) :=
  C2_single_attempt.2.1 503 "" (by norm_num)

/-- C3, counterexample.  The claim says a page without the root content
container leads to a structural error distinct from a network error, never
to an empty result.  The code returns plain empty results: `[]` from
`list_institutes` (src/main.py lines 174-176) and `(is_odd_week, [])` from
`get_week_schedule` (lines 258-260), indistinguishable from a cleanly parsed
empty page. -/
theorem C3_counterexample :
    list_institutes ⟨none⟩ = [] ∧
    get_week_schedule_parse ⟨some "чётная неделя", none⟩ = (true, []) := by
  refine ⟨rfl, by decide⟩

/-- C3, amended.  When the root content container is absent,
`list_institutes` returns the empty catalog and `get_week_schedule` returns
`(is_odd_week, [])`; no error of any kind is raised, so the caller cannot
distinguish a malformed page from an empty one. -/
theorem C3_missing_container :
    (∀ dateweek : Option String,
        get_week_schedule_parse ⟨dateweek, none⟩ = (resolve_is_odd_week dateweek, [])) ∧
    list_institutes ⟨none⟩ = [] :=
  ⟨fun _ => rfl, rfl⟩

/-- C4, counterexample.  2025-01-06 and 2025-01-07 fall in the same ISO week
(week 2 of 2025), yet the cache key `f"{group_id}:{date.isoformat()}"`
(src/main.py lines 147-148) separates them: a result stored under the first
date is a miss for the second. -/
theorem C4_counterexample :
    isoYearWeek ⟨2025, 1, 6⟩ = isoYearWeek ⟨2025, 1, 7⟩ ∧
    parsed_cache_hit (parsed_cache_store [] 1 ⟨2025, 1, 6⟩ 0 (true, [])) 1 ⟨2025, 1, 6⟩
      = some (true, []) ∧
    parsed_cache_hit (parsed_cache_store [] 1 ⟨2025, 1, 6⟩ 0 (true, [])) 1 ⟨2025, 1, 7⟩
      = none := by
  refine ⟨by decide, by decide, by decide⟩

/-- C4, amended.  The weekly cache is keyed at `(group_id, calendar date)`
granularity, not `(group_id, ISO_year, ISO_week)`: a stored result is hit
again only by the same group and the very same date; any date with a
different ISO representation — including the other days of the same ISO
week — misses. -/
theorem C4_cache_key_granularity :
    (∀ (g : Nat) (d : PyDate) (now : Nat) (r : WeekResult),
        parsed_cache_hit (parsed_cache_store [] g d now r) g d = some r) ∧
    (∀ (g : Nat) (d d2 : PyDate) (now : Nat) (r : WeekResult),
        pyIsoFormat d ≠ pyIsoFormat d2 →
        parsed_cache_hit (parsed_cache_store [] g d now r) g d2 = none) := by
  constructor
  · intro g d now r
    simp [parsed_cache_hit, parsed_cache_store, pyDictSet, pyDictGet]
  · intro g d d2 now r hne
    have hkey : _parsed_cache_key g d ≠ _parsed_cache_key g d2 := by
      intro h
      apply hne
      have hdata := congrArg String.data h
      simp only [_parsed_cache_key, String.data_append] at hdata
      exact String.ext (List.append_cancel_left hdata)
    simp [parsed_cache_hit, parsed_cache_store, pyDictSet, pyDictGet, hkey]

/-- Witness for C4: a same-date hit and a next-day miss at concrete dates. -/
theorem C4_witness :
    parsed_cache_hit (parsed_cache_store [] 7 ⟨2025, 3, 3⟩ 5 (false, [])) 7 ⟨2025, 3, 3⟩
      = some (false, []) ∧
    parsed_cache_hit (parsed_cache_store [] 7 ⟨2025, 3, 3⟩ 5 (false, [])) 7 ⟨2025, 3, 4⟩
      = none :=
  ⟨C4_cache_key_granularity.1 7 ⟨2025, 3, 3⟩ 5 (false, []),
   C4_cache_key_granularity.2 7 ⟨2025, 3, 3⟩ ⟨2025, 3, 4⟩ 5 (false, []) (by decide)⟩

/-- C8.  Time parsing round-trips every in-range `HH:MM`, any parsed result
is in range, and the spec's non-examples (empty, out-of-range hour or
minute, non-numeric) all yield no result. -/
theorem C8_parse_time :
    (∀ h, h < 24 → ∀ m, m < 60 → _parse_time (fmtHM (h, m)) = some (h, m)) ∧
    (∀ (s : String) (hm : Nat × Nat),
        _parse_time s = some hm → hm.1 ≤ 23 ∧ hm.2 ≤ 59) ∧
    _parse_time "" = none ∧
    _parse_time "25:00" = none ∧
    _parse_time "12:60" = none ∧
    _parse_time "abc" = none := by
  refine ⟨by decide, ?_, by decide, by decide, by decide, by decide⟩
  intro s hm h
  unfold _parse_time at h
  split at h
  · split at h
    · exact checkHM_le h
    · exact absurd h (by simp)
  · split at h
    · exact checkHM_le h
    · exact absurd h (by simp)
  · exact absurd h (by simp)

/-- Witness for C8: the round trip at 09:05 and range soundness of a
concrete parse. -/
theorem C8_witness :
    _parse_time (fmtHM (9, 5)) = some (9, 5) ∧ (9 : Nat) ≤ 23 ∧ (5 : Nat) ≤ 59 :=
  ⟨C8_parse_time.1 9 (by decide) 5 (by decide),
   C8_parse_time.2.1 "09:05" (9, 5) (by decide)⟩

/-- C9.  Date-heading resolution is total on calendrically impossible dates:
whenever the extracted day/month pair is invalid for the resolved year, the
resolution returns `none` — the `ValueError` of the `date` constructor is
caught inside `_extract_date_from_heading` and never escapes. -/
theorem C9_impossible_date :
    ∀ (heading : String) (reference : PyDate) (day month : Nat),
      _extract_day_month heading = some (day, month) →
      isValidPyDate (resolveYear reference month) month day = false →
      _extract_date_from_heading heading reference = none := by
  intro heading reference day month h1 h2
  simp [_extract_date_from_heading, h1, mkPyDate, h2]

/-- Witness for C9: day 30 of February yields no resolved date. -/
theorem C9_witness :
    _extract_date_from_heading "Среда, 30 февраля" ⟨2025, 6, 1⟩ = none :=
  C9_impossible_date "Среда, 30 февраля" ⟨2025, 6, 1⟩ 30 2 (by decide) (by decide)

/-- C7.  Tail selection: the per-item lessons are exactly the concatenated
contributions of the selected tails; every `class-all-week` tail of the item
is selected; a tail carrying only the non-matching parity class is never
selected (so it contributes no lesson); and a tail whose entire lowered text
is the free marker contributes zero lessons. -/
theorem C7_tail_selection :
    (∀ (is_odd : Bool) (item : WeekItem) (ts : String) (start : StartTime),
        item.time_text = some ts → _parse_time ts = some start →
        lessonsOfItem is_odd item =
          (selected_tails is_odd item).flatMap (tail_lessons start)) ∧
    (∀ (is_odd : Bool) (item : WeekItem) (t : Tail),
        t ∈ item.tails → isAllWeekTail t = true →
        t ∈ selected_tails is_odd item) ∧
    (∀ (is_odd : Bool) (item : WeekItem) (t : Tail),
        isParityTail (!is_odd) t = true → isAllWeekTail t = false →
        isParityTail is_odd t = false → t ∉ selected_tails is_odd item) ∧
    (∀ (start : StartTime) (t : Tail),
        pyLowerStr t.text = "свободно" → tail_lessons start t = []) := by
  refine ⟨?_, ?_, ?_, ?_⟩
  · intro is_odd item ts start h1 h2
    simp only [lessonsOfItem, h1, h2]
    by_cases he : (selected_tails is_odd item).isEmpty = true
    · rw [if_pos he, List.isEmpty_iff.mp he]
      rfl
    · rw [if_neg he]
  · intro is_odd item t hmem hall
    unfold selected_tails
    cases hfind : item.tails.find? (isParityTail is_odd) <;>
      simp [hfind, List.mem_filter]
    · exact ⟨hmem, hall⟩
    · exact Or.inl ⟨hmem, hall⟩
  · intro is_odd item t _ hall hpar
    unfold selected_tails
    cases hfind : item.tails.find? (isParityTail is_odd) <;>
      simp [hfind, List.mem_filter, hall]
    intro heq
    have hu := List.find?_some hfind
    rw [← heq, hpar] at hu
    cases hu
  · intro start t h
    unfold tail_lessons
    rw [if_pos h]

/-- A lesson-line item with an all-week tail, an odd-week tail and an
even-week tail, used to witness the tail-selection properties. -/
def tailAll : Tail := ⟨["class-tail", "class-all-week"], "Алгебра", [.pred "Алгебра"]⟩

/-- An odd-week tail. -/
def tailOdd : Tail := ⟨["class-tail", "class-odd-week"], "Физика", [.pred "Физика"]⟩

/-- An even-week tail. -/
def tailEven : Tail := ⟨["class-tail", "class-even-week"], "Химия", [.pred "Химия"]⟩

/-- A tail whose whole text is the free marker. -/
def tailFree : Tail := ⟨["class-tail", "class-all-week"], "Свободно", []⟩

/-- An item carrying all three tail parities. -/
def itemBothTails : WeekItem := ⟨some "09:00", [tailAll, tailOdd, tailEven]⟩

/-- Witness for C7: on an odd week the item's lessons are the contributions
of the selected tails, the all-week tail is selected, the even-week tail is
not, and a free tail contributes nothing. -/
theorem C7_witness :
    lessonsOfItem true itemBothTails =
      (selected_tails true itemBothTails).flatMap (tail_lessons (9, 0)) ∧
    tailAll ∈ selected_tails true itemBothTails ∧
    tailEven ∉ selected_tails true itemBothTails ∧
    tail_lessons (9, 0) tailFree = [] :=
  ⟨C7_tail_selection.1 true itemBothTails "09:00" (9, 0) rfl (by decide),
   C7_tail_selection.2.1 true itemBothTails tailAll (by decide) (by decide),
   C7_tail_selection.2.2.1 true itemBothTails tailEven (by decide) (by decide) (by decide),
   C7_tail_selection.2.2.2 (9, 0) tailFree (by decide)⟩

/-- The canonical shape of a subgroup label: empty, or exactly
`"подгруппа "` followed by a nonempty digit run. -/
def isCanonicalSubgroup (s : String) : Prop :=
  s = "" ∨ ∃ ds : List Char, ds ≠ [] ∧ (∀ c ∈ ds, c.isDigit = true) ∧
    s = String.mk ("подгруппа ".data ++ ds)

/-- Helper: a successful anchored subgroup match captures a nonempty digit
run. -/
theorem subgroupDigitsAt_sound {cs ds : List Char}
    (h : subgroupDigitsAt cs = some ds) :
    ds ≠ [] ∧ ∀ c ∈ ds, c.isDigit = true := by
  simp only [subgroupDigitsAt] at h
  split at h
  · split at h
    · exact absurd h (by simp)
    · rename_i hne
      cases h
      refine ⟨?_, fun c hc => List.mem_takeWhile_imp hc⟩
      intro hnil
      exact hne (by rw [hnil]; rfl)
  · cases h

/-- Helper: a successful subgroup search captures a nonempty digit run. -/
theorem searchSubgroupDigits_sound : ∀ {cs ds : List Char},
    searchSubgroupDigits cs = some ds →
    ds ≠ [] ∧ ∀ c ∈ ds, c.isDigit = true := by
  intro cs
  induction cs with
  | nil => intro ds h; cases h
  | cons c rest ih =>
    intro ds h
    unfold searchSubgroupDigits at h
    cases hm : subgroupDigitsAt (c :: rest) with
    | some ds2 =>
      simp only [hm] at h
      cases h
      exact subgroupDigitsAt_sound hm
    | none =>
      simp only [hm] at h
      exact ih h

/-- Helper: `_extract_subgroup` always returns a canonical label. -/
theorem extract_subgroup_canonical (text : String) :
    isCanonicalSubgroup (_extract_subgroup text) := by
  unfold _extract_subgroup
  cases hs : searchSubgroupDigits (text.data.map pyLowerChar) with
  | none => exact Or.inl rfl
  | some ds =>
    obtain ⟨h1, h2⟩ := searchSubgroupDigits_sound hs
    exact Or.inr ⟨ds, h1, h2, rfl⟩

/-- Helper: every lesson built at one subject position carries a canonical
subgroup label. -/
theorem lessonAt_subgroup {start : StartTime} {nodes : List TailNode} {i : Nat}
    {l : Lesson} (h : l ∈ lessonAt start nodes i) :
    isCanonicalSubgroup l.subgroup := by
  unfold lessonAt at h
  cases hn : nodes[i]? with
  | none => simp only [hn] at h; exact absurd h (List.not_mem_nil l)
  | some node =>
    cases node with
    | pred subject =>
      simp only [hn] at h
      by_cases hs : subject = ""
      · rw [if_pos hs] at h
        exact absurd h (List.not_mem_nil l)
      · rw [if_neg hs, List.mem_singleton] at h
        subst h
        exact extract_subgroup_canonical _
    | info t as => simp only [hn] at h; exact absurd h (List.not_mem_nil l)
    | aud t => simp only [hn] at h; exact absurd h (List.not_mem_nil l)

/-- Helper: every lesson of a tail's node list carries a canonical subgroup
label. -/
theorem lessonsOfNodes_subgroup {start : StartTime} {nodes : List TailNode}
    {l : Lesson} (h : l ∈ lessonsOfNodes start nodes) :
    isCanonicalSubgroup l.subgroup := by
  obtain ⟨i, _, hl⟩ := List.mem_flatMap.mp h
  exact lessonAt_subgroup hl

/-- Helper: every lesson a tail contributes carries a canonical subgroup
label. -/
theorem tail_lessons_subgroup {start : StartTime} {t : Tail} {l : Lesson}
    (h : l ∈ tail_lessons start t) : isCanonicalSubgroup l.subgroup := by
  unfold tail_lessons at h
  split at h
  · exact absurd h (List.not_mem_nil l)
  · exact lessonsOfNodes_subgroup h

/-- C10.  Subgroup labels are canonicalized: `_extract_subgroup` returns
either `""` or exactly `"подгруппа N"` for a nonempty digit run `N`, so
every parsed lesson's subgroup field has this canonical form; surrounding
text and capitalization are discarded. -/
theorem C10_subgroup_canonical :
    (∀ text : String, isCanonicalSubgroup (_extract_subgroup text)) ∧
    (∀ (is_odd : Bool) (item : WeekItem) (l : Lesson),
        l ∈ lessonsOfItem is_odd item → isCanonicalSubgroup l.subgroup) ∧
    _extract_subgroup "Лекции: ПОДГРУППА  12 (группа А)" = "подгруппа 12" ∧
    _extract_subgroup "номер не указан" = "" ∧
    _extract_subgroup "подгруппа" = "" := by
  refine ⟨extract_subgroup_canonical, ?_, by decide, by decide, by decide⟩
  intro is_odd item l h
  unfold lessonsOfItem at h
  cases h1 : item.time_text with
  | none => simp only [h1] at h; exact absurd h (List.not_mem_nil l)
  | some ts =>
    simp only [h1] at h
    cases h2 : _parse_time ts with
    | none => simp only [h2] at h; exact absurd h (List.not_mem_nil l)
    | some start =>
      simp only [h2] at h
      split at h
      · exact absurd h (List.not_mem_nil l)
      · obtain ⟨t, _, hl⟩ := List.mem_flatMap.mp h
        exact tail_lessons_subgroup hl

/-- An item whose single all-week tail yields a lesson with a subgroup
label, used to witness the canonical form on a parsed lesson. -/
def itemSubgroups : WeekItem :=
  ⟨some "08:15",
   [⟨["class-tail", "class-all-week"], "занятие",
     [.info "Практика" [], .pred "Матанализ", .info "подгруппа 2" []]⟩]⟩

/-- Witness for C10: the subgroup field of a concrete parsed lesson is
canonical. -/
theorem C10_witness :
    isCanonicalSubgroup
      (Lesson.mk (8, 15) "Матанализ" "практика" "подгруппа 2" "—" "—").subgroup :=
  C10_subgroup_canonical.2.1 false itemSubgroups
    (Lesson.mk (8, 15) "Матанализ" "практика" "подгруппа 2" "—" "—") (by decide)

/-- A 09:00 lesson labelled for subgroup 1. -/
def lessonSub1 : Lesson := ⟨(9, 0), "Матан", "лекция", "подгруппа 1", "204", "Иванов"⟩

/-- The same 09:00 lesson with an empty (applies-to-all) subgroup label. -/
def lessonNoSub : Lesson := ⟨(9, 0), "Матан", "лекция", "", "204", "Иванов"⟩

/-- C5, counterexample.  The claim orders lessons by start time, then
subgroup with numbered subgroups before the unlabeled case.  The code
(src/main.py lines 427 and 443) sorts by `(start, subject, kind, subgroup,
room, teacher)` with plain string comparison on the subgroup, so at equal
start time and otherwise equal fields the empty subgroup label `""` sorts
before `"подгруппа 1"`: the unlabeled lesson is rendered first. -/
theorem C5_counterexample :
    rendered_lessons [lessonSub1, lessonNoSub] = [lessonNoSub, lessonSub1] ∧
    lessonSub1.start = lessonNoSub.start := by
  refine ⟨by decide, rfl⟩

/-- C5, amended.  Lessons within a day are sorted by the lexicographic key
`(start, subject case-sensitive, kind, subgroup, room, teacher)`; the
subgroup component uses plain string order, so the empty applies-to-all
label precedes every numbered label: two lessons differing only in an
empty versus `"подгруппа 1"` subgroup are rendered with the unlabeled one
first. -/
theorem C5_lesson_sort_order :
    (∀ ls : List Lesson,
        (sortLessons ls).Perm ls ∧ List.Sorted lessonSortR (sortLessons ls)) ∧
    (∀ a b : Lesson, a.start = b.start → a.subject = b.subject →
        a.kind = b.kind → a.room = b.room → a.teacher = b.teacher →
        a.subgroup = "" → b.subgroup = "подгруппа 1" →
        rendered_lessons [b, a] = [a, b]) := by
  constructor
  · intro ls
    exact ⟨List.perm_insertionSort lessonSortR ls,
           List.sorted_insertionSort lessonSortR ls⟩
  · intro a b h1 h2 h3 h4 h5 ha hb
    have hkey : lessonKey a < lessonKey b := by
      unfold lessonKey
      rw [Prod.Lex.lt_iff]
      refine Or.inr ⟨by rw [h1], ?_⟩
      rw [Prod.Lex.lt_iff]
      refine Or.inr ⟨by rw [h1], ?_⟩
      rw [Prod.Lex.lt_iff]
      refine Or.inr ⟨by rw [h2], ?_⟩
      rw [Prod.Lex.lt_iff]
      refine Or.inr ⟨by rw [h3], ?_⟩
      rw [Prod.Lex.lt_iff]
      refine Or.inl ?_
      rw [ha, hb]
      show ("" : String).data < ("подгруппа 1" : String).data
      decide
    have hr_ba : ¬ lessonSortR b a := by
      unfold lessonSortR
      exact not_le.mpr hkey
    have hv_ab : variantR a b := by
      unfold variantR
      unfold variantKey
      rw [Prod.Lex.le_iff]
      refine Or.inr ⟨by rw [h2], ?_⟩
      rw [Prod.Lex.le_iff]
      refine Or.inr ⟨by rw [h3], ?_⟩
      rw [Prod.Lex.le_iff]
      refine Or.inl ?_
      rw [ha, hb]
      show ("" : String).data < ("подгруппа 1" : String).data
      decide
    simp [rendered_lessons, sortLessons, groupBlocks, addToBlocks,
      sortedVariants, List.insertionSort, List.orderedInsert, hr_ba, hv_ab, h1]

/-- Witness for C5: the sorted result is a permutation of a concrete input,
and the concrete unlabeled/labelled pair is rendered unlabeled-first. -/
theorem C5_witness :
    (sortLessons [lessonSub1, lessonNoSub]).Perm [lessonSub1, lessonNoSub] ∧
    rendered_lessons [lessonSub1, lessonNoSub] = [lessonNoSub, lessonSub1] :=
  ⟨(C5_lesson_sort_order.1 [lessonSub1, lessonNoSub]).1,
   C5_lesson_sort_order.2 lessonNoSub lessonSub1 rfl rfl rfl rfl rfl rfl rfl⟩

/-- A per-institute page containing one course whose two anchors share the
same numeric group id. -/
def dupGroupPage : CoursePage :=
  ⟨some [⟨"Курс 1", some [⟨"?group=5", "Б-1"⟩, ⟨"?group=5", "А-1"⟩]⟩]⟩

/-- C6, counterexample.  The claim says every course bucket is
de-duplicated by numeric id.  `list_groups_by_course` (src/main.py lines
217-229) appends every matching anchor to a plain list without any
de-duplication: a course page with two anchors for group id 5 yields a
bucket with two entries of id 5. -/
theorem C6_counterexample :
    list_groups_by_course dupGroupPage = [(1, [⟨5, "А-1"⟩, ⟨5, "Б-1"⟩])] ∧
    ¬ (((list_groups_by_course dupGroupPage).flatMap
          (fun p => p.2.map Group.group_id)).Nodup) := by
  refine ⟨by decide, by decide⟩

/-- Helper: a dict assignment keeps the key list duplicate-free. -/
theorem pyDictSet_fst_nodup {κ β : Type} [DecidableEq κ] {m : List (κ × β)}
    {k : κ} {v : β} (h : (m.map Prod.fst).Nodup) :
    ((pyDictSet m k v).map Prod.fst).Nodup := by
  unfold pyDictSet
  split
  · have hmap : (m.map (fun p => if p.1 = k then (k, v) else p)).map Prod.fst
        = m.map Prod.fst := by
      rw [List.map_map]
      apply List.map_congr_left
      intro p _
      by_cases hp : p.1 = k
      · simp [hp]
      · simp [hp]
    rw [hmap]
    exact h
  · rename_i hany
    rw [List.map_append]
    simp only [List.map_cons, List.map_nil]
    rw [List.nodup_append]
    refine ⟨h, List.nodup_singleton k, ?_⟩
    intro x hx hk
    rw [List.mem_singleton] at hk
    subst hk
    obtain ⟨p, hp, hpk⟩ := List.mem_map.mp hx
    apply hany
    rw [List.any_eq_true]
    exact ⟨p, hp, by simp [hpk]⟩

/-- Helper: the institutes dict fold keeps ids duplicate-free. -/
theorem instFold_fst_nodup : ∀ (anchors : List Anchor) (m : List (Nat × String)),
    (m.map Prod.fst).Nodup → (((anchors.foldl instStep m)).map Prod.fst).Nodup := by
  intro anchors
  induction anchors with
  | nil => intro m h; exact h
  | cons a rest ih =>
    intro m h
    rw [List.foldl_cons]
    apply ih
    cases hid : idAfterMarker "?subdiv=" a.href with
    | none => simpa [instStep, hid] using h
    | some sid =>
      simp only [instStep, hid]
      by_cases ht : a.text ≠ ""
      · rw [if_pos ht]
        exact pyDictSet_fst_nodup h
      · rw [if_neg ht]
        exact h

/-- Helper: membership after a dict assignment is the new pair or an old
one. -/
theorem mem_pyDictSet {κ β : Type} [DecidableEq κ] {m : List (κ × β)}
    {k : κ} {v : β} {p : κ × β} (h : p ∈ pyDictSet m k v) :
    p = (k, v) ∨ p ∈ m := by
  unfold pyDictSet at h
  split at h
  · obtain ⟨q, hq, heq⟩ := List.mem_map.mp h
    by_cases hc : q.1 = k
    · left
      rw [← heq]
      simp [hc]
    · right
      rw [← heq]
      simp [hc]
      exact hq
  · rcases List.mem_append.mp h with hm | hm
    · right; exact hm
    · left; exact List.mem_singleton.mp hm

/-- Helper: every bucket value surviving one course step is sorted. -/
theorem courseStep_sorted {m : List (Nat × List Group)} {it : CourseItem}
    (h : ∀ p ∈ m, List.Sorted groupLowerR p.2) :
    ∀ p ∈ courseStep m it, List.Sorted groupLowerR p.2 := by
  intro p hp
  unfold courseStep at hp
  cases ha : it.groupAnchors with
  | none =>
    simp only [ha] at hp
    exact h p hp
  | some anchors =>
    simp only [ha] at hp
    cases hch : courseOfHeader it.header with
    | none =>
      simp only [hch] at hp
      exact h p hp
    | some course =>
      simp only [hch] at hp
      split at hp
      · exact h p hp
      · rcases mem_pyDictSet hp with heq | hm
        · rw [heq]
          exact List.sorted_insertionSort groupLowerR _
        · exact h p hm

/-- Helper: every bucket value of the course fold is sorted. -/
theorem groupsFold_sorted : ∀ (items : List CourseItem) (m : List (Nat × List Group)),
    (∀ p ∈ m, List.Sorted groupLowerR p.2) →
    ∀ p ∈ items.foldl courseStep m, List.Sorted groupLowerR p.2 := by
  intro items
  induction items with
  | nil => intro m h; exact h
  | cons it rest ih =>
    intro m h
    rw [List.foldl_cons]
    exact ih _ (courseStep_sorted h)

/-- C6, amended.  `list_institutes` de-duplicates by id (last-seen nonempty
title wins) and sorts case-insensitively by title; every course bucket of
`list_groups_by_course` is sorted case-insensitively by title but is NOT
de-duplicated by id. -/
theorem C6_catalog_order :
    (∀ page : RootPage, List.Sorted instituteLowerR (list_institutes page)) ∧
    (∀ page : RootPage, ((list_institutes page).map Institute.subdiv_id).Nodup) ∧
    list_institutes ⟨some [⟨"?subdiv=7", "Старый"⟩, ⟨"?subdiv=7", "Новый"⟩]⟩
      = [⟨7, "Новый"⟩] ∧
    (∀ (page : CoursePage) (c : Nat) (gs : List Group),
        (c, gs) ∈ list_groups_by_course page → List.Sorted groupLowerR gs) := by
  refine ⟨?_, ?_, by decide, ?_⟩
  · intro page
    cases hc : page.content with
    | none => simp [list_institutes, hc]
    | some anchors =>
      simp only [list_institutes, hc]
      exact List.sorted_insertionSort instituteLowerR _
  · intro page
    cases hc : page.content with
    | none => simp [list_institutes, hc]
    | some anchors =>
      simp only [list_institutes, hc]
      have hperm := List.perm_insertionSort instituteLowerR
        ((((selectByHrefStart "?subdiv=" anchors).foldl instStep [])).map
          (fun p => Institute.mk p.1 p.2))
      have hnodup : (((((selectByHrefStart "?subdiv=" anchors).foldl instStep [])).map
          (fun p => Institute.mk p.1 p.2)).map Institute.subdiv_id).Nodup := by
        rw [List.map_map]
        have hcomp : (Institute.subdiv_id ∘ fun p : Nat × String => Institute.mk p.1 p.2)
            = Prod.fst := rfl
        rw [hcomp]
        exact instFold_fst_nodup _ [] (by simp)
      exact (hperm.map Institute.subdiv_id).symm.nodup hnodup
  · intro page c gs hmem
    cases hk : page.kurs_list with
    | none => simp [list_groups_by_course, hk] at hmem
    | some items =>
      simp only [list_groups_by_course, hk] at hmem
      exact groupsFold_sorted items [] (by intro p hp; cases hp) (c, gs) hmem

/-- Witness for C6: the duplicate-id bucket of the counterexample page is
nevertheless sorted case-insensitively. -/
theorem C6_witness :
    List.Sorted groupLowerR [Group.mk 5 "А-1", Group.mk 5 "Б-1"] :=
  C6_catalog_order.2.2.2 dupGroupPage 1 [Group.mk 5 "А-1", Group.mk 5 "Б-1"] (by decide)

end SchedulePy
